import Mathlib

/-!
Verification of the scanrx-backend token-and-response cache layer.

This file shallowly embeds the two core modules of the repository:

* `src/api/services/cache-service.js` — a bounded in-memory TTL cache
  backed by a JavaScript `Map` (modelled as an insertion-ordered
  association list with unique keys) and a statistics record.
* `src/api/services/emdex-service.js` — token acquisition/refresh with an
  expiry buffer, the raw authenticated request with a single 401 retry,
  and the caching wrapper around it.

Timestamps are `Int` milliseconds (JavaScript `Date.now()`); network I/O
is modelled by explicit outcome oracles, and the number of login / data
fetches performed is threaded explicitly so that "performs no I/O" and
"exactly one retry" become provable statements.
-/

namespace ScanRx

/-- Decidable equality for `Except`, so that concrete runs of the service
can be evaluated by `decide`. -/
instance {ε α : Type} [DecidableEq ε] [DecidableEq α] :
    DecidableEq (Except ε α) := fun a b =>
  match a, b with
  | .ok x, .ok y =>
      if h : x = y then isTrue (by rw [h]) else isFalse (by simp [h])
  | .error x, .error y =>
      if h : x = y then isTrue (by rw [h]) else isFalse (by simp [h])
  | .ok _, .error _ => isFalse (by simp)
  | .error _, .ok _ => isFalse (by simp)

namespace CacheService

/-- A cached payload, as produced by the EMDEX service: opaque body plus
an optional `error` field (JSON may carry `error: ""`, which JavaScript
treats as falsy; we keep the field as written). A parsed-JSON object is
always truthy in JavaScript, which is why a stored payload never needs a
separate truthiness test. -/
structure Payload where
  body : String
  error : Option String
deriving DecidableEq

/-- A cache entry as built by `set` in cache-service.js:
`{ data, createdAt: now, expiresAt: now + ttlSeconds*1000, ttl: ttlSeconds }`. -/
structure CacheEntry where
  data : Payload
  createdAt : Int
  expiresAt : Int
  ttl : Int
deriving DecidableEq

/-- The `stats` object of cache-service.js: monotone counters. -/
structure CacheStats where
  hits : Nat
  misses : Nat
  sets : Nat
  evictions : Nat
deriving DecidableEq

/-- The module state of cache-service.js: the `Map` (insertion-ordered
association list, unique keys) plus the counters. -/
structure CacheState where
  store : List (String × CacheEntry)
  stats : CacheStats
deriving DecidableEq

/-- `MAX_CACHE_SIZE = 1000`. -/
def MAX_CACHE_SIZE : Nat := 1000

/-- `Math.ceil(MAX_CACHE_SIZE * 0.1)`.  In IEEE-754 double arithmetic
`1000 * 0.1` rounds to exactly `100.0` (the excess of `0.1`'s
representation over 1/10, scaled by 1000, is below half an ulp at 100),
so the ceiling is exactly 100. -/
def EVICT_BATCH : Nat := 100

/-- `Map.prototype.get`: first (and only, keys are unique) binding. -/
def mapGet (k : String) : List (String × CacheEntry) → Option CacheEntry
  | [] => none
  | (k', v) :: rest => if k' = k then some v else mapGet k rest

/-- `Map.prototype.set`: replace in place if the key is present (keeping
its insertion position), otherwise append at the end. -/
def mapSet (k : String) (v : CacheEntry) :
    List (String × CacheEntry) → List (String × CacheEntry)
  | [] => [(k, v)]
  | (k', v') :: rest =>
      if k' = k then (k, v) :: rest else (k', v') :: mapSet k v rest

/-- `Map.prototype.delete`: remove the binding of `k` (the first match;
keys are unique in a `Map`). -/
def mapDelete (k : String) :
    List (String × CacheEntry) → List (String × CacheEntry)
  | [] => []
  | (k', v') :: rest =>
      if k' = k then rest else (k', v') :: mapDelete k rest

/-- `Map.prototype.has` / the boolean result of `Map.prototype.delete`. -/
def mapMem (k : String) (l : List (String × CacheEntry)) : Bool :=
  l.any (fun kv => kv.1 = k)

/-- `get(key)` of cache-service.js: miss on absent key; a present but
expired entry (`item.expiresAt < now`, strict) is deleted and counted as
a miss; otherwise a hit returning `item.data`. -/
def get (key : String) (now : Int) (st : CacheState) :
    Option Payload × CacheState :=
  match mapGet key st.store with
  | none =>
      (none, { st with stats := { st.stats with misses := st.stats.misses + 1 } })
  | some item =>
      if item.expiresAt < now then
        (none, { store := mapDelete key st.store,
                 stats := { st.stats with misses := st.stats.misses + 1 } })
      else
        (some item.data, { st with stats := { st.stats with hits := st.stats.hits + 1 } })

/-- The comparator passed to `entries.sort` in `evictOldest`:
ascending `createdAt`.  JavaScript's `Array.prototype.sort` is stable;
`List.insertionSort` with this non-strict relation is a stable ascending
sort, hence a faithful model. -/
def byCreatedAt (a b : String × CacheEntry) : Prop :=
  a.2.createdAt ≤ b.2.createdAt

instance : DecidableRel byCreatedAt := fun a b =>
  inferInstanceAs (Decidable (a.2.createdAt ≤ b.2.createdAt))

/-- The sorted copy `Array.from(cache.entries()).sort(...)`. -/
def sortByCreatedAt (l : List (String × CacheEntry)) :
    List (String × CacheEntry) :=
  List.insertionSort byCreatedAt l

/-- The deletion loop of `evictOldest`: delete each listed key and
increment the evictions counter once per iteration. -/
def evictLoop (st : CacheState) : List String → CacheState
  | [] => st
  | k :: ks =>
      evictLoop
        { store := mapDelete k st.store,
          stats := { st.stats with evictions := st.stats.evictions + 1 } } ks

/-- `evictOldest()`: sort all entries by creation time (oldest first) and
delete the first `min(EVICT_BATCH, entries.length)` of them (`List.take`
clamps exactly like the loop bound `i < itemsToRemove && i < entries.length`). -/
def evictOldest (st : CacheState) : CacheState :=
  evictLoop st (((sortByCreatedAt st.store).take EVICT_BATCH).map Prod.fst)

/-- `set(key, data, ttlSeconds)`: evict when `cache.size >= MAX_CACHE_SIZE`,
then insert `{data, createdAt: now, expiresAt: now + ttlSeconds*1000, ttl}`
and increment the sets counter. -/
def set (key : String) (data : Payload) (ttlSeconds : Int) (now : Int)
    (st : CacheState) : CacheState :=
  let st1 := if MAX_CACHE_SIZE ≤ st.store.length then evictOldest st else st
  let entry : CacheEntry :=
    { data := data, createdAt := now, expiresAt := now + ttlSeconds * 1000,
      ttl := ttlSeconds }
  { store := mapSet key entry st1.store,
    stats := { st1.stats with sets := st1.stats.sets + 1 } }

/-- `del(key)`: `cache.delete(key)`, returning whether a binding was removed. -/
def del (key : String) (st : CacheState) : Bool × CacheState :=
  (mapMem key st.store, { st with store := mapDelete key st.store })

/-- `clear()`: `cache.clear()` — the stats object is not touched. -/
def clear (st : CacheState) : CacheState :=
  { st with store := [] }

/-- `has(key)`: same lazy-expiry removal as `get`, but touches no counters. -/
def has (key : String) (now : Int) (st : CacheState) : Bool × CacheState :=
  match mapGet key st.store with
  | none => (false, st)
  | some item =>
      if item.expiresAt < now then
        (false, { st with store := mapDelete key st.store })
      else
        (true, st)

/-- `getTTL(key)`: `max`-style remaining TTL in whole seconds,
`Math.ceil(remaining/1000)` when positive, else 0.  The source performs
no mutation, so the returned state is the input state; returning the
pair keeps the uniform state-transformer shape of the embedding. -/
def getTTL (key : String) (now : Int) (st : CacheState) : Int × CacheState :=
  match mapGet key st.store with
  | none => (0, st)
  | some item =>
      let remaining := item.expiresAt - now
      (if remaining > 0 then (remaining + 999) / 1000 else 0, st)

/-- The record returned by `getStats()` (the derived `hitRate` display
string, a floating-point percentage formatting, is omitted: no claim
mentions it). -/
structure StatsReport where
  hits : Nat
  misses : Nat
  sets : Nat
  evictions : Nat
  size : Nat
  maxSize : Nat
deriving DecidableEq

/-- `getStats()`. -/
def getStats (st : CacheState) : StatsReport :=
  { hits := st.stats.hits, misses := st.stats.misses, sets := st.stats.sets,
    evictions := st.stats.evictions, size := st.store.length,
    maxSize := MAX_CACHE_SIZE }

/-- Lexicographic comparison of character lists by code point, the order
`Array.prototype.sort()` uses on strings (JavaScript compares UTF-16 code
units; for the Basic Multilingual Plane — all keys occurring here — that
coincides with code-point order). -/
def charListLe : List Char → List Char → Bool
  | [], _ => true
  | _ :: _, [] => false
  | a :: as, b :: bs =>
      if a < b then true else if b < a then false else charListLe as bs

/-- String comparison for the default key sort. -/
def jsStrLe (a b : String) : Prop :=
  charListLe a.data b.data = true

instance : DecidableRel jsStrLe := fun a b =>
  inferInstanceAs (Decidable (charListLe a.data b.data = true))

/-- The sort `Object.keys(params).sort()` (default lexicographic string
order); stable ascending insertion sort on the key list. -/
def sortKeys (l : List String) : List String :=
  List.insertionSort jsStrLe l

/-- `String.prototype.toLowerCase()` on the ASCII range (the parameter
values of this service are ASCII drug-search terms; code points outside
`A`–`Z` are left unchanged, as the source's callers never produce
locale-sensitive case mappings). -/
def jsLowerChar (c : Char) : Char :=
  if 'A' ≤ c ∧ c ≤ 'Z' then Char.ofNat (c.toNat + 32) else c

/-- `String.prototype.toLowerCase()`. -/
def jsToLowerCase (s : String) : String :=
  ⟨s.data.map jsLowerChar⟩

/-- The WhiteSpace / LineTerminator test of `String.prototype.trim()`
(ASCII subset: space, tab, LF, VT, FF, CR). -/
def jsIsWhitespace (c : Char) : Bool :=
  c = ' ' || c = '\t' || c = '\n' || c = '\r' ||
    decide (c.toNat = 11) || decide (c.toNat = 12)

/-- `String.prototype.trim()`: drop whitespace from both ends. -/
def jsTrim (s : String) : String :=
  ⟨((s.data.dropWhile jsIsWhitespace).reverse.dropWhile jsIsWhitespace).reverse⟩

/-- `params[key]` for a key drawn from `Object.keys(params)`.  Parameters
are an object, hence an insertion-ordered association list with unique
keys; a `none` value models a `null`/`undefined` parameter value. -/
def lookupParam (k : String) : List (String × Option String) → Option String
  | [] => none
  | (k', v) :: rest => if k' = k then v else lookupParam k rest

/-- `generateKey(prefix, params)`: sort the parameter names, drop
`null`/`undefined` values, normalize each remaining value with
`String(value).toLowerCase().trim()`, join `key=value` parts with `_`,
and prepend `prefix_` only when at least one part remains. -/
def generateKey (pre : String) (params : List (String × Option String)) :
    String :=
  let normalizedParts :=
    (sortKeys (params.map Prod.fst)).filterMap (fun k =>
      match lookupParam k params with
      | none => none
      | some v => some (k ++ "=" ++ jsTrim (jsToLowerCase v)))
  let paramsString := String.intercalate "_" normalizedParts
  if paramsString = "" then pre else pre ++ "_" ++ paramsString

end CacheService

namespace EmdexService

open CacheService

/-- The `code` discriminant carried by `EmdexError`. -/
inductive ErrorCode
  | AUTH_FAILED
  | NETWORK_ERROR
  | REQUEST_FAILED
deriving DecidableEq

/-- The `EmdexError` class: message plus classification code (the
`originalError` payload carries no behaviour and is omitted). -/
structure EmdexError where
  message : String
  code : ErrorCode
deriving DecidableEq

/-- The module-level token cache of emdex-service.js:
`cachedToken` / `tokenExpiresAt`, each nullable. -/
structure TokenState where
  cachedToken : Option String
  tokenExpiresAt : Option Int
deriving DecidableEq

/-- `clearTokenCache()` / the cleared state written on login failure and
before the 401 retry. -/
def clearedState : TokenState := ⟨none, none⟩

/-- Environment configuration read from `process.env`: the three EMDEX
variables plus the `USE_MOCK_EMDEX === 'true'` flag.  A `none` models an
unset variable; an empty string is set but falsy. -/
structure Config where
  apiUrl : Option String
  email : Option String
  password : Option String
  useMock : Bool
deriving DecidableEq

/-- JavaScript string truthiness as a filter: a missing or empty string
becomes `none`. -/
def strTruthy : Option String → Option String
  | none => none
  | some s => if s = "" then none else some s

/-- JavaScript number truthiness as a filter: a missing or zero number
becomes `none`. -/
def numTruthy : Option Int → Option Int
  | none => none
  | some n => if n = 0 then none else some n

/-- The guard `!apiUrl || !email || !password` (negated). -/
def configured (cfg : Config) : Bool :=
  (strTruthy cfg.apiUrl).isSome && (strTruthy cfg.email).isSome &&
    (strTruthy cfg.password).isSome

/-- The freshness test
`cachedToken && tokenExpiresAt && (tokenExpiresAt - 60000) > now`
(JavaScript truthiness on both fields, then the 60-second buffer). -/
def tokenFresh (st : TokenState) (now : Int) : Bool :=
  match st.cachedToken, st.tokenExpiresAt with
  | some t, some e => (if t = "" then false else true) &&
      (if e = 0 then false else true) && decide (e - 60000 > now)
  | _, _ => false

/-- The parsed JSON body of a login response; the service probes
`token`/`access_token` and `expires_in`/`expiresIn`. -/
structure LoginBody where
  token : Option String
  access_token : Option String
  expires_in : Option Int
  expiresIn : Option Int
deriving DecidableEq

/-- Outcome of the login `fetch`: a transport-level rejection, or an HTTP
response with status, parsed body and error text. -/
inductive LoginOutcome
  | transportError (message : String)
  | response (status : Nat) (body : LoginBody) (errorText : String)
deriving DecidableEq

/-- `Response.ok`: status in the inclusive range 200–299. -/
def responseOk (status : Nat) : Bool :=
  decide (200 ≤ status) && decide (status ≤ 299)

/-- `data.token || data.access_token` (empty strings are falsy). -/
def tokenOfBody (body : LoginBody) : Option String :=
  (strTruthy body.token).orElse (fun _ => strTruthy body.access_token)

/-- `data.expires_in || data.expiresIn || 3600`
(zero is falsy, so it also falls through to the default). -/
def expiresInOfBody (body : LoginBody) : Int :=
  ((numTruthy body.expires_in).orElse (fun _ => numTruthy body.expiresIn)).getD 3600

/-- The message of the missing-configuration `EmdexError`. -/
def missingCredsMsg : String :=
  "EMDEX credentials not configured. Please set EMDEX_API_URL, EMDEX_EMAIL, and EMDEX_PASSWORD environment variables."

/-- The message of the token-less login response `EmdexError`. -/
def noTokenMsg : String :=
  "EMDEX login response did not contain a token"

/-- `getToken()`.  The login call is modelled by the `login` outcome
oracle; the third component counts how many login fetches were issued
(0 on the fresh-token fast path, 1 otherwise).  Note that the
missing-configuration throw happens before the `try` block, so it does
not clear the stored token; every failure inside the `try` is caught,
clears the token state, and is rethrown (classified as `NETWORK_ERROR`
unless it is already an `EmdexError`). -/
def getToken (cfg : Config) (login : LoginOutcome) (now : Int)
    (st : TokenState) : Except EmdexError String × TokenState × Nat :=
  if tokenFresh st now then
    (.ok (st.cachedToken.getD ""), st, 0)
  else if configured cfg = false then
    (.error ⟨missingCredsMsg, .AUTH_FAILED⟩, st, 0)
  else
    match login with
    | .transportError msg =>
        (.error ⟨"Network error during EMDEX authentication: " ++ msg,
          .NETWORK_ERROR⟩, clearedState, 1)
    | .response status body errorText =>
        if responseOk status = false then
          (.error ⟨"EMDEX login failed: " ++ toString status ++ ". " ++ errorText,
            .AUTH_FAILED⟩, clearedState, 1)
        else
          match tokenOfBody body with
          | none =>
              (.error ⟨noTokenMsg, .AUTH_FAILED⟩, clearedState, 1)
          | some token =>
              (.ok token,
                ⟨some token, some (now + expiresInOfBody body * 1000)⟩, 1)

/-- Outcome of a data `fetch`: a transport-level rejection, or an HTTP
response with status, parsed payload and error text. -/
inductive DataOutcome
  | transportError (message : String)
  | response (status : Nat) (body : Payload) (errorText : String)
deriving DecidableEq

/-- The I/O environment of the service: what the n-th login fetch and the
n-th data fetch would return, plus the value `mockEmdexRequest` would
produce when `USE_MOCK_EMDEX` is enabled. -/
structure Env where
  logins : Nat → LoginOutcome
  datas : Nat → DataOutcome
  mockResult : Payload

/-- How many login and data fetches have been issued so far. -/
structure CallCounts where
  loginCalls : Nat
  dataCalls : Nat
deriving DecidableEq

/-- `emdexRequest(endpoint, body, true)`: the body of `emdexRequest`
entered with `isRetry = true`.  The `status === 401 && !isRetry` branch
can no longer fire there, so a 401 falls through to the generic non-2xx
`REQUEST_FAILED` failure.  The source's self-call is bounded at depth 1
by the `isRetry` flag; writing this single unfolding as its own
definition (instead of a well-founded recursion) keeps the whole
function definitionally reducible. -/
def emdexRequestRetry (cfg : Config) (env : Env) (now : Int)
    (_endpoint : String) (_body : List (String × Option String))
    (st : TokenState) (c : CallCounts) :
    Except EmdexError Payload × TokenState × CallCounts :=
  if cfg.useMock then
    (.ok env.mockResult, st, c)
  else if (strTruthy cfg.apiUrl).isNone then
    (.error ⟨"EMDEX_API_URL not configured", .REQUEST_FAILED⟩, st, c)
  else
    match getToken cfg (env.logins c.loginCalls) now st with
    | (.error e, st1, used) =>
        (.error e, st1, { c with loginCalls := c.loginCalls + used })
    | (.ok _token, st1, used) =>
        let c1 : CallCounts := { c with loginCalls := c.loginCalls + used }
        match env.datas c1.dataCalls with
        | .transportError msg =>
            (.error ⟨"Network error during EMDEX request: " ++ msg,
              .NETWORK_ERROR⟩, st1,
              { c1 with dataCalls := c1.dataCalls + 1 })
        | .response status _payload errorText =>
            let c2 : CallCounts := { c1 with dataCalls := c1.dataCalls + 1 }
            if responseOk status = false then
              (.error ⟨"EMDEX request failed: " ++ toString status ++ ". " ++ errorText,
                .REQUEST_FAILED⟩, st1, c2)
            else
              (.ok _payload, st1, c2)

/-- `emdexRequest(endpoint, body, isRetry)`: the mock branch, the
`EMDEX_API_URL` guard, one `getToken()` (whose classified failures
propagate unchanged through the catch), then one data fetch.  A 401 on a
non-retry call clears the token state and re-enters once with
`isRetry = true` (the re-entry is `emdexRequestRetry`); any remaining
non-2xx status is `REQUEST_FAILED`, a transport rejection is
`NETWORK_ERROR`. -/
def emdexRequest (cfg : Config) (env : Env) (now : Int) (endpoint : String)
    (body : List (String × Option String)) (isRetry : Bool)
    (st : TokenState) (c : CallCounts) :
    Except EmdexError Payload × TokenState × CallCounts :=
  if cfg.useMock then
    (.ok env.mockResult, st, c)
  else if (strTruthy cfg.apiUrl).isNone then
    (.error ⟨"EMDEX_API_URL not configured", .REQUEST_FAILED⟩, st, c)
  else
    match getToken cfg (env.logins c.loginCalls) now st with
    | (.error e, st1, used) =>
        (.error e, st1, { c with loginCalls := c.loginCalls + used })
    | (.ok _token, st1, used) =>
        let c1 : CallCounts := { c with loginCalls := c.loginCalls + used }
        match env.datas c1.dataCalls with
        | .transportError msg =>
            (.error ⟨"Network error during EMDEX request: " ++ msg,
              .NETWORK_ERROR⟩, st1,
              { c1 with dataCalls := c1.dataCalls + 1 })
        | .response status payload errorText =>
            let c2 : CallCounts := { c1 with dataCalls := c1.dataCalls + 1 }
            if status = 401 ∧ isRetry = false then
              emdexRequestRetry cfg env now endpoint body clearedState c2
            else if responseOk status = false then
              (.error ⟨"EMDEX request failed: " ++ toString status ++ ". " ++ errorText,
                .REQUEST_FAILED⟩, st1, c2)
            else
              (.ok payload, st1, c2)

/-- `!result.error` on a parsed payload: the error field is present and
truthy (a missing or empty-string error field is falsy). -/
def truthyError (p : Payload) : Bool :=
  match p.error with
  | none => false
  | some s => if s = "" then false else true

/-- The cache metadata `_cache: {hit, key, ttl}` spliced onto results. -/
structure CacheMeta where
  hit : Bool
  key : String
  ttl : Int
deriving DecidableEq

/-- A payload annotated with cache provenance, the shape
`{ ...result, _cache: {...} }` returned by `cachedEmdexRequest`. -/
structure AnnotatedResult where
  payload : Payload
  meta : CacheMeta
deriving DecidableEq

/-- `endpoint.replace(/\//g, '_')`: the global single-character regex
replace, i.e. every `/` becomes `_`. -/
def replaceSlashes (s : String) : String :=
  ⟨s.data.map (fun c => if c = '/' then '_' else c)⟩

/-- The cache key `cache.generateKey('emdex' + endpoint.replace(/\//g, '_'), body)`. -/
def requestKey (endpoint : String) (body : List (String × Option String)) :
    String :=
  generateKey ("emdex" ++ replaceSlashes endpoint) body

/-- `cachedEmdexRequest(endpoint, body, ttlSeconds)`: look the key up in
the response cache (with its hit/miss counting and lazy expiry); on a hit
annotate the stored payload with the remaining TTL; on a miss run the raw
request, store the result for `ttlSeconds` only when its error field is
falsy (a parsed-JSON `result` object itself is always truthy), and
annotate with `hit: false`.  Raw-request failures propagate unchanged and
are never stored. -/
def cachedEmdexRequest (cfg : Config) (env : Env) (now : Int)
    (endpoint : String) (body : List (String × Option String))
    (ttlSeconds : Int) (st : TokenState) (cst : CacheState) (c : CallCounts) :
    Except EmdexError AnnotatedResult × TokenState × CacheState × CallCounts :=
  let cacheKey := requestKey endpoint body
  match CacheService.get cacheKey now cst with
  | (some cachedData, cst1) =>
      (.ok ⟨cachedData, ⟨true, cacheKey, (getTTL cacheKey now cst1).1⟩⟩,
        st, cst1, c)
  | (none, cst1) =>
      match emdexRequest cfg env now endpoint body false st c with
      | (.error e, st1, c1) => (.error e, st1, cst1, c1)
      | (.ok result, st1, c1) =>
          let cst2 :=
            if truthyError result = false then
              CacheService.set cacheKey result ttlSeconds now cst1
            else cst1
          (.ok ⟨result, ⟨false, cacheKey, ttlSeconds⟩⟩, st1, cst2, c1)

/-- `clearResponseCache()`. -/
def clearResponseCache (cst : CacheState) : CacheState :=
  CacheService.clear cst

end EmdexService

namespace CacheService

/-! ### Association-list lemmas for the `Map` model -/

theorem mapDelete_length_of_mem {k : String} {l : List (String × CacheEntry)}
    {v : CacheEntry} (h : mapGet k l = some v) :
    (mapDelete k l).length + 1 = l.length := by
  induction l with
  | nil => simp [mapGet] at h
  | cons hd tl ih =>
      obtain ⟨k', v'⟩ := hd
      by_cases hk : k' = k
      · simp [mapDelete, hk]
      · simp only [mapGet, if_neg hk] at h
        simp [mapDelete, hk, ih h]

/-! ### Claim C8 -/

/-- C8: `clear()` removes all entries (the store size becomes 0) while
leaving the hits, misses, sets and evictions counters unchanged. -/
theorem clear_empties_store_preserves_counters (st : CacheState) :
    (clear st).store = [] ∧ (getStats (clear st)).size = 0 ∧
      (clear st).stats = st.stats :=
  ⟨rfl, rfl, rfl⟩

/-! ### Claim C9 -/

theorem lookupParam_eq_none {params : List (String × Option String)}
    (h : ∀ kv ∈ params, kv.2 = none) (k : String) :
    lookupParam k params = none := by
  induction params with
  | nil => rfl
  | cons hd tl ih =>
      obtain ⟨k', v⟩ := hd
      simp only [lookupParam]
      split
      · exact h (k', v) (List.mem_cons_self _ _)
      · exact ih fun kv hkv => h kv (List.mem_cons_of_mem _ hkv)

/-- C9: when the parameter map is empty or every parameter value is
null/undefined, `generateKey` returns the bare prefix with no trailing
separator. -/
theorem generateKey_bare_prefix (pre : String)
    (params : List (String × Option String))
    (h : ∀ kv ∈ params, kv.2 = none) :
    generateKey pre params = pre := by
  unfold generateKey
  have hparts :
      (sortKeys (params.map Prod.fst)).filterMap (fun k =>
        match lookupParam k params with
        | none => none
        | some v => some (k ++ "=" ++ jsTrim (jsToLowerCase v))) = [] := by
    rw [List.filterMap_eq_nil_iff]
    intro k _
    rw [lookupParam_eq_none h k]
  rw [hparts]
  rfl

/-- Witness for C9 at a concrete input. -/
theorem generateKey_bare_prefix_witness :
    generateKey "p" [("a", none), ("b", none)] = "p" :=
  generateKey_bare_prefix "p" [("a", none), ("b", none)] (by decide)

/-! ### Claim C10 -/

/-- C10: `getTTL` never mutates the cache — for every key, including one
whose entry is present but expired (where it returns 0), the state (store
and all counters) is returned unchanged. -/
theorem getTTL_pure (key : String) (now : Int) (st : CacheState) :
    (getTTL key now st).2 = st ∧
      (∀ item, mapGet key st.store = some item → item.expiresAt < now →
        (getTTL key now st).1 = 0) := by
  constructor
  · unfold getTTL
    rcases h : mapGet key st.store with _ | item <;> simp
  · intro item hitem hexp
    unfold getTTL
    rw [hitem]
    simp only
    rw [if_neg (by omega)]

/-- Witness for C10: a present-but-expired entry,`getTTL` returns 0 and
the state with its counters is untouched. -/
theorem getTTL_pure_witness :
    (getTTL "k" 6 ⟨[("k", ⟨⟨"d", none⟩, 0, 5, 5⟩)], ⟨1, 2, 3, 4⟩⟩).2
        = ⟨[("k", ⟨⟨"d", none⟩, 0, 5, 5⟩)], ⟨1, 2, 3, 4⟩⟩ ∧
      (getTTL "k" 6 ⟨[("k", ⟨⟨"d", none⟩, 0, 5, 5⟩)], ⟨1, 2, 3, 4⟩⟩).1 = 0 :=
  ⟨(getTTL_pure "k" 6 _).1,
    (getTTL_pure "k" 6 _).2 ⟨⟨"d", none⟩, 0, 5, 5⟩ (by decide) (by decide)⟩

/-! ### Claim C4 -/

/-- C4 counterexample: the expiry test is strict (`item.expiresAt < now`),
so at `now = expiresAt` — where the claim demands not-found and removal —
`get` still returns the stored value, `has` still answers true, and the
store size does not decrease. -/
theorem get_at_exact_expiry_counterexample :
    (get "k" 5 ⟨[("k", ⟨⟨"d", none⟩, 0, 5, 5⟩)], ⟨0, 0, 0, 0⟩⟩).1
        = some ⟨"d", none⟩ ∧
      (getStats (get "k" 5 ⟨[("k", ⟨⟨"d", none⟩, 0, 5, 5⟩)], ⟨0, 0, 0, 0⟩⟩).2).size = 1 ∧
      (has "k" 5 ⟨[("k", ⟨⟨"d", none⟩, 0, 5, 5⟩)], ⟨0, 0, 0, 0⟩⟩).1 = true :=
  ⟨by decide, by decide, by decide⟩

/-- C4 (amended: once `now > expiresAt`, i.e. strictly after expiry): the
next `get` reports not-found, the next `has` reports false, and each
removes the expired entry, so the reported store size decreases by
exactly one. -/
theorem get_has_lazy_expiry (key : String) (now : Int) (st : CacheState)
    (item : CacheEntry) (hitem : mapGet key st.store = some item)
    (hexp : item.expiresAt < now) :
    (get key now st).1 = none ∧
      (getStats (get key now st).2).size + 1 = (getStats st).size ∧
      (has key now st).1 = false ∧
      (getStats (has key now st).2).size + 1 = (getStats st).size := by
  unfold get has getStats
  rw [hitem]
  simp only [if_pos hexp]
  refine ⟨by trivial, ?_, by trivial, ?_⟩ <;> exact mapDelete_length_of_mem hitem

/-! ### Claim C7 -/

theorem charListLe_total : ∀ a b : List Char,
    charListLe a b = true ∨ charListLe b a = true
  | [], _ => Or.inl rfl
  | _ :: _, [] => Or.inr rfl
  | a :: as, b :: bs => by
      unfold charListLe
      rcases lt_trichotomy a b with h | h | h
      · left; rw [if_pos h]
      · subst h
        simp only [lt_irrefl, if_neg, if_false]
        exact charListLe_total as bs
      · right; rw [if_pos h]

theorem charListLe_trans : ∀ a b c : List Char,
    charListLe a b = true → charListLe b c = true → charListLe a c = true
  | [], _, _, _, _ => rfl
  | _ :: _, [], _, h1, _ => by simp [charListLe] at h1
  | _ :: _, _ :: _, [], _, h2 => by simp [charListLe] at h2
  | a :: as, b :: bs, c :: cs, h1, h2 => by
      unfold charListLe at h1 h2 ⊢
      rcases lt_trichotomy a b with hab | hab | hab
      · rw [if_pos hab] at h1
        rcases lt_trichotomy b c with hbc | hbc | hbc
        · rw [if_pos (lt_trans hab hbc)]
        · subst hbc; rw [if_pos hab]
        · rw [if_neg (lt_asymm hbc), if_pos hbc] at h2
          exact absurd h2 (by simp)
      · subst hab
        rw [if_neg (lt_irrefl a), if_neg (lt_irrefl a)] at h1
        rcases lt_trichotomy a c with hac | hac | hac
        · rw [if_pos hac]
        · subst hac
          rw [if_neg (lt_irrefl a), if_neg (lt_irrefl a)] at h2 ⊢
          exact charListLe_trans as bs cs h1 h2
        · rw [if_neg (lt_asymm hac), if_pos hac] at h2
          exact absurd h2 (by simp)
      · rw [if_neg (lt_asymm hab), if_pos hab] at h1
        exact absurd h1 (by simp)

theorem charListLe_antisymm : ∀ a b : List Char,
    charListLe a b = true → charListLe b a = true → a = b
  | [], [], _, _ => rfl
  | [], _ :: _, _, h2 => by simp [charListLe] at h2
  | _ :: _, [], h1, _ => by simp [charListLe] at h1
  | a :: as, b :: bs, h1, h2 => by
      unfold charListLe at h1 h2
      rcases lt_trichotomy a b with hab | hab | hab
      · rw [if_neg (lt_asymm hab), if_pos hab] at h2
        exact absurd h2 (by simp)
      · subst hab
        rw [if_neg (lt_irrefl a), if_neg (lt_irrefl a)] at h1 h2
        rw [charListLe_antisymm as bs h1 h2]
      · rw [if_neg (lt_asymm hab), if_pos hab] at h1
        exact absurd h1 (by simp)

instance : IsTotal String jsStrLe :=
  ⟨fun a b => charListLe_total a.data b.data⟩

instance : IsTrans String jsStrLe :=
  ⟨fun a b c => charListLe_trans a.data b.data c.data⟩

instance : IsAntisymm String jsStrLe :=
  ⟨fun a b h1 h2 => by
    cases a; cases b
    exact congrArg String.mk (charListLe_antisymm _ _ h1 h2)⟩

theorem sortKeys_perm (l : List String) : (sortKeys l).Perm l :=
  List.perm_insertionSort _ l

theorem sortKeys_sorted (l : List String) : (sortKeys l).Sorted jsStrLe :=
  List.sorted_insertionSort _ l

/-- Two key lists that are permutations of each other sort identically. -/
theorem sortKeys_eq_of_perm {l₁ l₂ : List String} (h : l₁.Perm l₂) :
    sortKeys l₁ = sortKeys l₂ :=
  List.eq_of_perm_of_sorted
    ((sortKeys_perm l₁).trans (h.trans (sortKeys_perm l₂).symm))
    (sortKeys_sorted l₁) (sortKeys_sorted l₂)

/-- For parameter objects (unique keys), lookup is invariant under
reordering of the bindings. -/
theorem lookupParam_perm {l₁ l₂ : List (String × Option String)}
    (h : l₁.Perm l₂) (hnd : (l₁.map Prod.fst).Nodup) (k : String) :
    lookupParam k l₁ = lookupParam k l₂ := by
  revert hnd
  induction h with
  | nil => intro _; rfl
  | cons x h ih =>
      intro hnd
      obtain ⟨k', v⟩ := x
      simp only [lookupParam]
      split
      · rfl
      · exact ih (by simpa using hnd.of_cons)
  | swap x y l =>
      intro hnd
      obtain ⟨kx, vx⟩ := x
      obtain ⟨ky, vy⟩ := y
      have hne : ky ≠ kx := by
        simp only [List.map_cons, List.nodup_cons, List.mem_cons] at hnd
        exact fun hEq => hnd.1 (Or.inl hEq)
      simp only [lookupParam]
      by_cases h1 : ky = k <;> by_cases h2 : kx = k <;>
        simp [h1, h2]
      exact absurd (h2.trans h1.symm) (fun hEq => hne hEq.symm)
  | trans h12 _h23 ih12 ih23 =>
      intro hnd
      exact (ih12 hnd).trans (ih23 ((h12.map Prod.fst).nodup_iff.mp hnd))

/-- C7: `generateKey` is deterministic and independent of parameter
insertion order — any permutation of a parameter object (unique keys)
yields the same key — and on the spec's concrete example both orders
yield `"p_a=1_b=2"`. -/
theorem generateKey_order_independent (pre : String)
    (l₁ l₂ : List (String × Option String)) (hperm : l₁.Perm l₂)
    (hnd : (l₁.map Prod.fst).Nodup) :
    generateKey pre l₁ = generateKey pre l₂ ∧
      generateKey "p" [("b", some "2"), ("a", some "1")]
        = generateKey "p" [("a", some "1"), ("b", some "2")] ∧
      generateKey "p" [("b", some "2"), ("a", some "1")] = "p_a=1_b=2" := by
  refine ⟨?_, by decide, by decide⟩
  unfold generateKey
  rw [sortKeys_eq_of_perm (hperm.map Prod.fst)]
  have hl : ∀ k, lookupParam k l₁ = lookupParam k l₂ :=
    lookupParam_perm hperm hnd
  simp only [hl]

/-- Witness for C7: a concrete reordering of a two-parameter object. -/
theorem generateKey_order_independent_witness :
    generateKey "q" [("x", some "1"), ("y", none)]
      = generateKey "q" [("y", none), ("x", some "1")] :=
  (generateKey_order_independent "q" [("x", some "1"), ("y", none)]
    [("y", none), ("x", some "1")] (by decide) (by decide)).1

/-- Witness for C4 (amended) at a concrete expired entry. -/
theorem get_has_lazy_expiry_witness :
    (get "k" 6 ⟨[("k", ⟨⟨"d", none⟩, 0, 5, 5⟩)], ⟨0, 0, 0, 0⟩⟩).1 = none ∧
      (getStats (get "k" 6 ⟨[("k", ⟨⟨"d", none⟩, 0, 5, 5⟩)], ⟨0, 0, 0, 0⟩⟩).2).size + 1
        = (getStats ⟨[("k", ⟨⟨"d", none⟩, 0, 5, 5⟩)], ⟨0, 0, 0, 0⟩⟩).size ∧
      (has "k" 6 ⟨[("k", ⟨⟨"d", none⟩, 0, 5, 5⟩)], ⟨0, 0, 0, 0⟩⟩).1 = false ∧
      (getStats (has "k" 6 ⟨[("k", ⟨⟨"d", none⟩, 0, 5, 5⟩)], ⟨0, 0, 0, 0⟩⟩).2).size + 1
        = (getStats ⟨[("k", ⟨⟨"d", none⟩, 0, 5, 5⟩)], ⟨0, 0, 0, 0⟩⟩).size :=
  get_has_lazy_expiry "k" 6 _ ⟨⟨"d", none⟩, 0, 5, 5⟩ (by decide) (by decide)

end CacheService

namespace EmdexService

/-! ### Claim C3 -/

/-- C3 counterexample: the upstream login reports `expires_in: 0`
(present, not omitted), so the claim demands
`expiresAt = now + 0 * 1000 = now`; the code reads the field with
JavaScript truthiness (`data.expires_in || data.expiresIn || 3600`), so
zero falls through to the 3600-second default and `now + 3600000` is
stored instead. -/
theorem getToken_expiresIn_zero_counterexample :
    (getToken ⟨some "u", some "e", some "p", false⟩
        (.response 200 ⟨some "tok", none, some 0, none⟩ "") 0
        ⟨none, none⟩).2.1.tokenExpiresAt = some 3600000 ∧
      (3600000 : Int) ≠ 0 + 0 * 1000 :=
  ⟨by decide, by decide⟩

/-- C3 (amended: the effective `expiresIn` is the first *truthy* of
`expires_in`, `expiresIn`, else 3600 — a present-but-zero value also
falls back to the default): a call with a fresh cached token
(`now < expiresAt − 60000`) returns that identical token with zero login
calls and an unchanged state; otherwise, with configuration present and a
successful login, it performs exactly one login, stores the token, sets
`expiresAt = now + effectiveExpiresIn * 1000`, and returns the new
token. -/
theorem getToken_freshness (cfg : Config) (login : LoginOutcome) (now : Int)
    (st : TokenState) :
    (∀ t, st.cachedToken = some t → tokenFresh st now = true →
        getToken cfg login now st = (.ok t, st, 0)) ∧
      (tokenFresh st now = false → configured cfg = true →
        ∀ status lb et tok, login = .response status lb et →
          responseOk status = true → tokenOfBody lb = some tok →
          getToken cfg login now st
              = (.ok tok, ⟨some tok, some (now + expiresInOfBody lb * 1000)⟩, 1) ∧
            (∀ n, lb.expires_in = some n → n ≠ 0 → expiresInOfBody lb = n) ∧
            (numTruthy lb.expires_in = none →
              ∀ m, lb.expiresIn = some m → m ≠ 0 → expiresInOfBody lb = m) ∧
            (numTruthy lb.expires_in = none → numTruthy lb.expiresIn = none →
              expiresInOfBody lb = 3600)) := by
  constructor
  · intro t ht hfresh
    unfold getToken
    rw [if_pos hfresh, ht]
    rfl
  · intro hstale hcfg status lb et tok hlogin hok htok
    subst hlogin
    refine ⟨?_, ?_, ?_, ?_⟩
    · unfold getToken
      simp only [hstale, hcfg, htok, hok]
      simp
    · intro n hn hnz
      unfold expiresInOfBody numTruthy
      rw [hn]
      simp [hnz]
    · intro hnone m hm hmz
      unfold expiresInOfBody
      rw [hnone, hm]
      unfold numTruthy
      simp [hmz, Option.orElse]
    · intro h1 h2
      unfold expiresInOfBody
      rw [h1, h2]
      rfl

/-- Witness for C3: a fresh token is returned unchanged with zero logins,
and from a stale state one successful login (expiry fields omitted)
stores the default one-hour expiry. -/
theorem getToken_freshness_witness :
    getToken ⟨some "u", some "e", some "p", false⟩
        (.response 200 ⟨some "tok", none, none, none⟩ "") 0
        ⟨some "cached", some 10000000⟩
      = (.ok "cached", ⟨some "cached", some 10000000⟩, 0) ∧
    getToken ⟨some "u", some "e", some "p", false⟩
        (.response 200 ⟨some "tok", none, none, none⟩ "") 0 ⟨none, none⟩
      = (.ok "tok", ⟨some "tok", some (0 + 3600 * 1000)⟩, 1) :=
  ⟨(getToken_freshness ⟨some "u", some "e", some "p", false⟩
      (.response 200 ⟨some "tok", none, none, none⟩ "") 0
      ⟨some "cached", some 10000000⟩).1 "cached" rfl (by decide),
    ((getToken_freshness ⟨some "u", some "e", some "p", false⟩
      (.response 200 ⟨some "tok", none, none, none⟩ "") 0 ⟨none, none⟩).2
      (by decide) (by decide) 200 ⟨some "tok", none, none, none⟩ "" "tok" rfl
      (by decide) (by decide)).1⟩

/-! ### Claim C5 -/

/-- C5 counterexample: a failing `getToken` call (stale stored token,
`EMDEX_API_URL` unset) fails with AUTH_FAILED but does **not** clear the
stored token and expiry — the missing-configuration throw happens before
the `try` block, so the `catch` that clears the token never runs. -/
theorem getToken_missing_config_counterexample :
    (getToken ⟨none, some "e", some "p", false⟩ (.transportError "x")
        100000000 ⟨some "old", some 1⟩).1
      = .error ⟨missingCredsMsg, .AUTH_FAILED⟩ ∧
      (getToken ⟨none, some "e", some "p", false⟩ (.transportError "x")
          100000000 ⟨some "old", some 1⟩).2.1 = ⟨some "old", some 1⟩ :=
  ⟨by decide, by decide⟩

/-- C5 (amended: the stored token and expiry are cleared on every failure
except missing configuration, whose throw precedes the `try` block and
leaves them unchanged): every failing `getToken` call carries a
classified error — AUTH_FAILED for missing configuration, a rejected
login, or a token-less login response; NETWORK_ERROR for transport
failures. -/
theorem getToken_failure_classification (cfg : Config) (login : LoginOutcome)
    (now : Int) (st : TokenState) (hstale : tokenFresh st now = false) :
    (configured cfg = false →
        getToken cfg login now st
          = (.error ⟨missingCredsMsg, .AUTH_FAILED⟩, st, 0)) ∧
      (configured cfg = true → ∀ m, login = .transportError m →
        getToken cfg login now st
          = (.error ⟨"Network error during EMDEX authentication: " ++ m,
              .NETWORK_ERROR⟩, clearedState, 1)) ∧
      (configured cfg = true → ∀ status lb et, login = .response status lb et →
        responseOk status = false →
        getToken cfg login now st
          = (.error ⟨"EMDEX login failed: " ++ toString status ++ ". " ++ et,
              .AUTH_FAILED⟩, clearedState, 1)) ∧
      (configured cfg = true → ∀ status lb et, login = .response status lb et →
        responseOk status = true → tokenOfBody lb = none →
        getToken cfg login now st
          = (.error ⟨noTokenMsg, .AUTH_FAILED⟩, clearedState, 1)) := by
  refine ⟨?_, ?_, ?_, ?_⟩
  · intro hcfg
    unfold getToken
    simp [hstale, hcfg]
  · intro hcfg m hm
    subst hm
    unfold getToken
    simp [hstale, hcfg]
  · intro hcfg status lb et hl hok
    subst hl
    unfold getToken
    simp [hstale, hcfg, hok]
  · intro hcfg status lb et hl hok htok
    subst hl
    unfold getToken
    simp [hstale, hcfg, hok, htok]

/-- Witness for C5 (amended): a concrete transport failure clears the
token state and is classified NETWORK_ERROR. -/
theorem getToken_failure_classification_witness :
    getToken ⟨some "u", some "e", some "p", false⟩ (.transportError "boom") 0
        ⟨none, none⟩
      = (.error ⟨"Network error during EMDEX authentication: " ++ "boom",
          .NETWORK_ERROR⟩, clearedState, 1) :=
  (getToken_failure_classification ⟨some "u", some "e", some "p", false⟩
    (.transportError "boom") 0 ⟨none, none⟩ (by decide)).2.1 (by decide)
    "boom" rfl

/-! ### Claim C2 -/

open CacheService

/-- A retry entry performs at most one data attempt. -/
theorem emdexRequestRetry_dataCalls_le (cfg : Config) (env : Env) (now : Int)
    (ep : String) (body : List (String × Option String)) (st : TokenState)
    (c : CallCounts) :
    (emdexRequestRetry cfg env now ep body st c).2.2.dataCalls
      ≤ c.dataCalls + 1 := by
  unfold emdexRequestRetry
  by_cases hm : cfg.useMock = true
  · simp [hm]
  · rw [if_neg hm]
    by_cases hn : (strTruthy cfg.apiUrl).isNone = true
    · simp [hn]
    · rw [if_neg hn]
      rcases hg : getToken cfg (env.logins c.loginCalls) now st with ⟨r, st1, used⟩
      cases r with
      | error e => simp
      | ok t =>
          simp only
          rcases hd : env.datas c.dataCalls with m | ⟨s, p, e⟩
          · simp [hd]
          · simp only [hd]
            split <;> simp

/-- Any call performs at most two data attempts: the `isRetry` flag bounds
the recursion at depth one, so the 401 handling can never loop. -/
theorem emdexRequest_dataCalls_le (cfg : Config) (env : Env) (now : Int)
    (ep : String) (body : List (String × Option String)) (isRetry : Bool)
    (st : TokenState) (c : CallCounts) :
    (emdexRequest cfg env now ep body isRetry st c).2.2.dataCalls
      ≤ c.dataCalls + 2 := by
  unfold emdexRequest
  by_cases hm : cfg.useMock = true
  · simp [hm]
  · rw [if_neg hm]
    by_cases hn : (strTruthy cfg.apiUrl).isNone = true
    · simp [hn]
    · rw [if_neg hn]
      rcases hg : getToken cfg (env.logins c.loginCalls) now st with ⟨r, st1, used⟩
      cases r with
      | error e => simp
      | ok t =>
          simp only
          rcases hd : env.datas c.dataCalls with m | ⟨s, p, e⟩
          · simp [hd]
          · simp only [hd]
            split
            · refine le_trans
                (emdexRequestRetry_dataCalls_le cfg env now ep body _ _) ?_
              simp
            · split <;> simp

/-- C2: entered with `isRetry = false`, a 401 data response clears the
token state and re-enters exactly once with `isRetry = true` (visible
here as the second token acquisition running from the cleared state and
the second data fetch being consumed); when the retry's response is again
401 — or any other non-success status — the call fails with the terminal
classified error REQUEST_FAILED after exactly two data attempts, and in
general no call ever makes more than two data attempts. -/
theorem emdexRequest_retry_once (cfg : Config) (env : Env) (now : Int)
    (ep : String) (body : List (String × Option String)) (st : TokenState)
    (c : CallCounts) (hmock : cfg.useMock = false)
    (hurl : (strTruthy cfg.apiUrl).isNone = false)
    (t1 : String) (st1 : TokenState) (u1 : Nat)
    (hg1 : getToken cfg (env.logins c.loginCalls) now st = (.ok t1, st1, u1))
    (p1 : Payload) (e1 : String)
    (hd1 : env.datas c.dataCalls = .response 401 p1 e1)
    (t2 : String) (st2 : TokenState) (u2 : Nat)
    (hg2 : getToken cfg (env.logins (c.loginCalls + u1)) now clearedState
        = (.ok t2, st2, u2))
    (s2 : Nat) (p2 : Payload) (e2 : String)
    (hd2 : env.datas (c.dataCalls + 1) = .response s2 p2 e2)
    (hs2 : responseOk s2 = false) :
    emdexRequest cfg env now ep body false st c
        = (.error ⟨"EMDEX request failed: " ++ toString s2 ++ ". " ++ e2,
            .REQUEST_FAILED⟩, st2,
           ⟨c.loginCalls + u1 + u2, c.dataCalls + 2⟩) ∧
      (∀ st' c', (emdexRequest cfg env now ep body false st' c').2.2.dataCalls
        ≤ c'.dataCalls + 2) := by
  refine ⟨?_, fun st' c' => emdexRequest_dataCalls_le cfg env now ep body false st' c'⟩
  unfold emdexRequest emdexRequestRetry
  simp [hmock, hurl, hg1, hd1, hg2, hd2, hs2]

/-- Witness for C2: a concrete double-401 run fails REQUEST_FAILED with
exactly two data attempts. -/
theorem emdexRequest_retry_once_witness :
    emdexRequest ⟨some "u", some "e", some "p", false⟩
        ⟨fun _ => .response 200 ⟨some "tok", none, some 3600, none⟩ "",
         fun _ => .response 401 ⟨"d", none⟩ "unauth", ⟨"m", none⟩⟩ 0 "/s" []
        false ⟨none, none⟩ ⟨0, 0⟩
      = (.error ⟨"EMDEX request failed: " ++ toString 401 ++ ". " ++ "unauth",
          .REQUEST_FAILED⟩, ⟨some "tok", some 3600000⟩, ⟨2, 2⟩) :=
  (emdexRequest_retry_once ⟨some "u", some "e", some "p", false⟩
    ⟨fun _ => .response 200 ⟨some "tok", none, some 3600, none⟩ "",
     fun _ => .response 401 ⟨"d", none⟩ "unauth", ⟨"m", none⟩⟩ 0 "/s" []
    ⟨none, none⟩ ⟨0, 0⟩ rfl rfl
    "tok" ⟨some "tok", some 3600000⟩ 1 (by decide)
    ⟨"d", none⟩ "unauth" rfl
    "tok" ⟨some "tok", some 3600000⟩ 1 (by decide)
    401 ⟨"d", none⟩ "unauth" rfl (by decide)).1

/-! ### Claim C6 -/

/-- C6 counterexample: the storage guard is `result && !result.error`
(JavaScript truthiness), so a success payload whose `error` field is
present but holds the empty string **is** stored — contradicting "stores
if and only if the result has no error field".  Concretely: a cold-cache
run whose data response carries `error: ""` populates the cache under the
request key with that errored payload. -/
theorem cachedEmdexRequest_empty_error_cached_counterexample :
    ((cachedEmdexRequest ⟨some "u", some "e", some "p", false⟩
        ⟨fun _ => .response 200 ⟨some "tok", none, some 3600, none⟩ "",
         fun _ => .response 200 ⟨"d", some ""⟩ "", ⟨"m", none⟩⟩ 0 "/s" [] 3600
        ⟨none, none⟩ ⟨[], ⟨0, 0, 0, 0⟩⟩ ⟨0, 0⟩).2.2.1.store.map Prod.fst)
      = ["emdex_s"] ∧
      (mapGet "emdex_s"
          (cachedEmdexRequest ⟨some "u", some "e", some "p", false⟩
            ⟨fun _ => .response 200 ⟨some "tok", none, some 3600, none⟩ "",
             fun _ => .response 200 ⟨"d", some ""⟩ "", ⟨"m", none⟩⟩ 0 "/s" [] 3600
            ⟨none, none⟩ ⟨[], ⟨0, 0, 0, 0⟩⟩ ⟨0, 0⟩).2.2.1.store).map
        (fun e => e.data.error) = some (some "") ∧
      (some "" : Option String) ≠ none :=
  ⟨by decide, by decide, by decide⟩

/-- C6 (amended: the result is stored iff its error field is *falsy* — a
missing error field or one holding the empty string both count as a
cacheable success): on a cache hit, `cachedEmdexRequest` returns the
stored payload annotated `{hit: true, key, ttl: remainingTTL(key)}` with
zero upstream calls and an unchanged token state; on a miss it runs the
raw request, stores a success under the key with `ttlSeconds` exactly
when the error field is falsy, and returns it annotated
`{hit: false, key, ttl: ttlSeconds}`; raw-request errors propagate
unchanged and never touch the cache beyond the lookup itself. -/
theorem cachedEmdexRequest_spec (cfg : Config) (env : Env) (now : Int)
    (ep : String) (body : List (String × Option String)) (ttlSeconds : Int)
    (st : TokenState) (cst : CacheState) (c : CallCounts) :
    (∀ d cst1, CacheService.get (requestKey ep body) now cst = (some d, cst1) →
        cachedEmdexRequest cfg env now ep body ttlSeconds st cst c
          = (.ok ⟨d, ⟨true, requestKey ep body,
              (getTTL (requestKey ep body) now cst1).1⟩⟩, st, cst1, c)) ∧
      (∀ cst1, CacheService.get (requestKey ep body) now cst = (none, cst1) →
        (∀ p st1 c1,
          emdexRequest cfg env now ep body false st c = (.ok p, st1, c1) →
          (truthyError p = false →
            cachedEmdexRequest cfg env now ep body ttlSeconds st cst c
              = (.ok ⟨p, ⟨false, requestKey ep body, ttlSeconds⟩⟩, st1,
                  CacheService.set (requestKey ep body) p ttlSeconds now cst1,
                  c1)) ∧
          (truthyError p = true →
            cachedEmdexRequest cfg env now ep body ttlSeconds st cst c
              = (.ok ⟨p, ⟨false, requestKey ep body, ttlSeconds⟩⟩, st1, cst1,
                  c1))) ∧
        (∀ e st1 c1,
          emdexRequest cfg env now ep body false st c = (.error e, st1, c1) →
          cachedEmdexRequest cfg env now ep body ttlSeconds st cst c
            = (.error e, st1, cst1, c1))) := by
  constructor
  · intro d cst1 hget
    unfold cachedEmdexRequest
    simp [hget]
  · intro cst1 hget
    refine ⟨?_, ?_⟩
    · intro p st1 c1 hreq
      constructor
      · intro ht
        unfold cachedEmdexRequest
        simp [hget, hreq, ht]
      · intro ht
        unfold cachedEmdexRequest
        simp [hget, hreq, ht]
    · intro e st1 c1 hreq
      unfold cachedEmdexRequest
      simp [hget, hreq]

/-- Witness for C6 (amended): a concrete cache hit returns the stored
payload annotated with the remaining TTL and performs zero upstream
calls. -/
theorem cachedEmdexRequest_spec_witness :
    cachedEmdexRequest ⟨some "u", some "e", some "p", false⟩
        ⟨fun _ => .response 200 ⟨some "tok", none, some 3600, none⟩ "",
         fun _ => .response 200 ⟨"d2", none⟩ "", ⟨"m", none⟩⟩ 0 "/s" [] 3600
        ⟨none, none⟩ ⟨[("emdex_s", ⟨⟨"d", none⟩, 0, 5000, 5⟩)], ⟨0, 0, 0, 0⟩⟩
        ⟨0, 0⟩
      = (.ok ⟨⟨"d", none⟩, ⟨true, requestKey "/s" [],
          (getTTL (requestKey "/s" []) 0
            ⟨[("emdex_s", ⟨⟨"d", none⟩, 0, 5000, 5⟩)], ⟨1, 0, 0, 0⟩⟩).1⟩⟩,
         ⟨none, none⟩,
         ⟨[("emdex_s", ⟨⟨"d", none⟩, 0, 5000, 5⟩)], ⟨1, 0, 0, 0⟩⟩, ⟨0, 0⟩) :=
  (cachedEmdexRequest_spec ⟨some "u", some "e", some "p", false⟩
    ⟨fun _ => .response 200 ⟨some "tok", none, some 3600, none⟩ "",
     fun _ => .response 200 ⟨"d2", none⟩ "", ⟨"m", none⟩⟩ 0 "/s" [] 3600
    ⟨none, none⟩ ⟨[("emdex_s", ⟨⟨"d", none⟩, 0, 5000, 5⟩)], ⟨0, 0, 0, 0⟩⟩
    ⟨0, 0⟩).1 ⟨"d", none⟩
    ⟨[("emdex_s", ⟨⟨"d", none⟩, 0, 5000, 5⟩)], ⟨1, 0, 0, 0⟩⟩ (by decide)

end EmdexService

namespace CacheService

/-! ### Claim C1: supporting lemmas -/

theorem mapSet_length_le (k : String) (v : CacheEntry)
    (l : List (String × CacheEntry)) :
    (mapSet k v l).length ≤ l.length + 1 := by
  induction l with
  | nil => simp [mapSet]
  | cons hd tl ih =>
      obtain ⟨k', v'⟩ := hd
      simp only [mapSet]
      split
      · simp
      · simp only [List.length_cons]
        omega

theorem mapDelete_sublist (k : String) (l : List (String × CacheEntry)) :
    (mapDelete k l).Sublist l := by
  induction l with
  | nil => simp [mapDelete]
  | cons hd tl ih =>
      obtain ⟨k', v'⟩ := hd
      simp only [mapDelete]
      split
      · exact List.sublist_cons_self _ _
      · exact ih.cons₂ _

theorem mapGet_isSome_of_mem (k : String) (l : List (String × CacheEntry))
    (hmem : k ∈ l.map Prod.fst) : ∃ v, mapGet k l = some v := by
  induction l with
  | nil => simp at hmem
  | cons hd tl ih =>
      obtain ⟨k', v'⟩ := hd
      simp only [List.map_cons, List.mem_cons] at hmem
      rcases hmem with h | h
      · exact ⟨v', by simp [mapGet, h.symm]⟩
      · by_cases hk : k' = k
        · exact ⟨v', by simp [mapGet, hk]⟩
        · obtain ⟨v, hv⟩ := ih h
          exact ⟨v, by simp [mapGet, hk, hv]⟩

theorem mapDelete_length_of_mem_keys {k : String}
    {l : List (String × CacheEntry)} (h : k ∈ l.map Prod.fst) :
    (mapDelete k l).length + 1 = l.length := by
  obtain ⟨v, hv⟩ := mapGet_isSome_of_mem k l h
  exact mapDelete_length_of_mem hv

theorem mem_keys_mapDelete_of_ne {k k' : String}
    {l : List (String × CacheEntry)} (hne : k' ≠ k)
    (h : k' ∈ l.map Prod.fst) : k' ∈ (mapDelete k l).map Prod.fst := by
  induction l with
  | nil => simp at h
  | cons hd tl ih =>
      obtain ⟨k₀, v₀⟩ := hd
      simp only [List.map_cons, List.mem_cons] at h
      simp only [mapDelete]
      split
      case isTrue heq =>
        rcases h with h | h
        · exact absurd (h.trans heq) hne
        · exact h
      case isFalse heq =>
        rcases h with h | h
        · simp [h]
        · simp [ih h]

theorem not_mem_keys_mapDelete {k : String} {l : List (String × CacheEntry)}
    (hnd : (l.map Prod.fst).Nodup) : k ∉ (mapDelete k l).map Prod.fst := by
  induction l with
  | nil => simp [mapDelete]
  | cons hd tl ih =>
      obtain ⟨k₀, v₀⟩ := hd
      simp only [List.map_cons, List.nodup_cons] at hnd
      simp only [mapDelete]
      split
      case isTrue heq =>
        rw [← heq]
        exact hnd.1
      case isFalse heq =>
        simp only [List.map_cons, List.mem_cons]
        rintro (h | h)
        · first
          | exact heq h
          | exact heq h.symm
        · exact ih hnd.2 h

theorem mapDelete_keys_nodup {k : String} {l : List (String × CacheEntry)}
    (hnd : (l.map Prod.fst).Nodup) :
    ((mapDelete k l).map Prod.fst).Nodup :=
  hnd.sublist ((mapDelete_sublist k l).map Prod.fst)

theorem mem_mapDelete_of_ne {kv : String × CacheEntry} {k : String}
    {l : List (String × CacheEntry)} (hkv : kv ∈ l) (hne : kv.1 ≠ k) :
    kv ∈ mapDelete k l := by
  induction l with
  | nil => simp at hkv
  | cons hd tl ih =>
      obtain ⟨k₀, v₀⟩ := hd
      simp only [mapDelete]
      rcases List.mem_cons.mp hkv with h | h
      · split
        case isTrue heq =>
          subst h
          exact absurd heq hne
        case isFalse heq =>
          exact h ▸ List.mem_cons_self _ _
      · split
        case isTrue heq => exact h
        case isFalse heq => exact List.mem_cons_of_mem _ (ih h)

theorem mem_keys_mapSet {x k : String} {v : CacheEntry}
    {l : List (String × CacheEntry)} :
    x ∈ (mapSet k v l).map Prod.fst ↔ x ∈ l.map Prod.fst ∨ x = k := by
  induction l with
  | nil => simp [mapSet]
  | cons hd tl ih =>
      obtain ⟨k₀, v₀⟩ := hd
      simp only [mapSet]
      split
      case isTrue heq =>
        subst heq
        simp only [List.map_cons, List.mem_cons]
        tauto
      case isFalse heq =>
        simp only [List.map_cons, List.mem_cons, ih]
        tauto

theorem mapSet_keys_nodup {k : String} {v : CacheEntry}
    {l : List (String × CacheEntry)} (hnd : (l.map Prod.fst).Nodup) :
    ((mapSet k v l).map Prod.fst).Nodup := by
  induction l with
  | nil => simp [mapSet]
  | cons hd tl ih =>
      obtain ⟨k₀, v₀⟩ := hd
      simp only [List.map_cons, List.nodup_cons] at hnd
      simp only [mapSet]
      split
      case isTrue heq =>
        simp only [List.map_cons, List.nodup_cons]
        exact ⟨heq ▸ hnd.1, hnd.2⟩
      case isFalse heq =>
        simp only [List.map_cons, List.nodup_cons]
        refine ⟨?_, ih hnd.2⟩
        rw [mem_keys_mapSet]
        rintro (h | h)
        · exact hnd.1 h
        · exact heq h

theorem evictLoop_stats (ks : List String) (st : CacheState) :
    (evictLoop st ks).stats
      = { st.stats with evictions := st.stats.evictions + ks.length } := by
  induction ks generalizing st with
  | nil => simp [evictLoop]
  | cons k ks ih =>
      simp only [evictLoop]
      rw [ih]
      simp only [List.length_cons, CacheStats.mk.injEq]
      refine ⟨by trivial, by trivial, by trivial, by omega⟩

theorem evictLoop_store_sublist (ks : List String) (st : CacheState) :
    (evictLoop st ks).store.Sublist st.store := by
  induction ks generalizing st with
  | nil => exact List.Sublist.refl _
  | cons k ks ih =>
      simp only [evictLoop]
      exact (ih _).trans (mapDelete_sublist k st.store)

theorem evictLoop_length (ks : List String) :
    ∀ st : CacheState, ks.Nodup → (st.store.map Prod.fst).Nodup →
      (∀ k ∈ ks, k ∈ st.store.map Prod.fst) →
      (evictLoop st ks).store.length + ks.length = st.store.length := by
  induction ks with
  | nil => intro st _ _ _; simp [evictLoop]
  | cons k ks ih =>
      intro st hnd hstore hmem
      simp only [evictLoop, List.length_cons]
      have hk : k ∈ st.store.map Prod.fst := hmem k (List.mem_cons_self _ _)
      have hdel := mapDelete_length_of_mem_keys hk
      have hrec := ih ⟨mapDelete k st.store,
          { st.stats with evictions := st.stats.evictions + 1 }⟩
        (List.nodup_cons.mp hnd).2 (mapDelete_keys_nodup hstore)
        (fun k' hk' => mem_keys_mapDelete_of_ne
          (fun hEq => (List.nodup_cons.mp hnd).1 (hEq ▸ hk'))
          (hmem k' (List.mem_cons_of_mem _ hk')))
      dsimp only at hrec ⊢
      omega

theorem mem_evictLoop_of_not_mem (ks : List String) :
    ∀ (st : CacheState) {kv : String × CacheEntry}, kv ∈ st.store →
      kv.1 ∉ ks → kv ∈ (evictLoop st ks).store := by
  induction ks with
  | nil => intro st kv hkv _; exact hkv
  | cons k ks ih =>
      intro st kv hkv hk
      simp only [evictLoop]
      refine ih _ ?_ ?_
      · exact mem_mapDelete_of_ne hkv
          (fun h => hk (h ▸ List.mem_cons_self _ _))
      · exact fun h => hk (List.mem_cons_of_mem _ h)

theorem not_mem_keys_evictLoop (ks : List String) :
    ∀ (st : CacheState), (st.store.map Prod.fst).Nodup → ∀ {k : String},
      k ∈ ks → k ∉ (evictLoop st ks).store.map Prod.fst := by
  induction ks with
  | nil => intro st _ k hk; simp at hk
  | cons k₀ ks ih =>
      intro st hstore k hk
      simp only [evictLoop]
      rcases List.mem_cons.mp hk with h | h
      · subst h
        intro hcon
        have hsub := (evictLoop_store_sublist ks
            ⟨mapDelete k st.store,
             { st.stats with evictions := st.stats.evictions + 1 }⟩).map Prod.fst
        exact not_mem_keys_mapDelete hstore (hsub.subset hcon)
      · exact ih _ (mapDelete_keys_nodup hstore) h

instance : IsTotal (String × CacheEntry) byCreatedAt :=
  ⟨fun a b => Int.le_total a.2.createdAt b.2.createdAt⟩

instance : IsTrans (String × CacheEntry) byCreatedAt :=
  ⟨fun _ _ _ hab hbc => le_trans hab hbc⟩

theorem sortByCreatedAt_perm (l : List (String × CacheEntry)) :
    (sortByCreatedAt l).Perm l :=
  List.perm_insertionSort _ l

theorem sortByCreatedAt_sorted (l : List (String × CacheEntry)) :
    (sortByCreatedAt l).Sorted byCreatedAt :=
  List.sorted_insertionSort _ l

/-- In a sorted list, every element of the prefix relates to every
element of the corresponding suffix. -/
theorem sorted_take_le_drop {l : List (String × CacheEntry)}
    (h : l.Sorted byCreatedAt) (n : Nat) {a b : String × CacheEntry}
    (ha : a ∈ l.take n) (hb : b ∈ l.drop n) : byCreatedAt a b := by
  have h2 : (l.take n ++ l.drop n).Sorted byCreatedAt := by
    rw [List.take_append_drop]
    exact h
  have h3 : List.Pairwise byCreatedAt (l.take n ++ l.drop n) := h2
  rw [List.pairwise_append] at h3
  exact h3.2.2 a ha b hb

/-- `get` either leaves the store alone or removes the looked-up key. -/
theorem get_store_cases (key : String) (now : Int) (st : CacheState) :
    (get key now st).2.store = st.store ∨
      (get key now st).2.store = mapDelete key st.store := by
  unfold get
  split
  · exact Or.inl rfl
  · split
    · exact Or.inr rfl
    · exact Or.inl rfl

/-- `has` either leaves the store alone or removes the looked-up key. -/
theorem has_store_cases (key : String) (now : Int) (st : CacheState) :
    (has key now st).2.store = st.store ∨
      (has key now st).2.store = mapDelete key st.store := by
  unfold has
  split
  · exact Or.inl rfl
  · split
    · exact Or.inr rfl
    · exact Or.inl rfl

/-- The `sets`-counter update of `set` does not touch the evictions
counter. -/
theorem set_stats_evictions_eq (key : String) (v : Payload) (ttl now : Int)
    (st : CacheState) :
    (set key v ttl now st).stats.evictions
      = ((if MAX_CACHE_SIZE ≤ st.store.length then evictOldest st
          else st).stats).evictions := rfl

/-- The store after `set` is a `Map.set` on the (possibly evicted)
intermediate store. -/
theorem set_store_eq (key : String) (v : Payload) (ttl now : Int)
    (st : CacheState) :
    (set key v ttl now st).store
      = mapSet key ⟨v, now, now + ttl * 1000, ttl⟩
          ((if MAX_CACHE_SIZE ≤ st.store.length then evictOldest st
            else st).store) := rfl

/-- C1: from any reachable cache state (unique keys and size at most
`MAX_CACHE_SIZE` = 1000), every mutating operation — `set`, the lazy
removals of `get`/`has`, `del`, `clear` — leaves the size at most 1000
and the keys unique; and a `set` arriving while size ≥ 1000 first evicts
exactly `ceil(1000 * 0.1)` = 100 entries, those with the oldest creation
timestamps regardless of their expiry (every evicted entry's `createdAt`
is at most every survivor's, and the evicted entries are exactly the
first 100 of the creation-time-sorted store), incrementing the evictions
counter once per removed entry. -/
theorem cache_capacity_invariant (st : CacheState) (key : String)
    (v : Payload) (ttl now : Int)
    (hnd : (st.store.map Prod.fst).Nodup)
    (hinv : st.store.length ≤ MAX_CACHE_SIZE) :
    ((set key v ttl now st).store.length ≤ MAX_CACHE_SIZE ∧
        ((set key v ttl now st).store.map Prod.fst).Nodup) ∧
      ((get key now st).2.store.length ≤ MAX_CACHE_SIZE ∧
        ((get key now st).2.store.map Prod.fst).Nodup) ∧
      ((has key now st).2.store.length ≤ MAX_CACHE_SIZE ∧
        ((has key now st).2.store.map Prod.fst).Nodup) ∧
      ((del key st).2.store.length ≤ MAX_CACHE_SIZE ∧
        ((del key st).2.store.map Prod.fst).Nodup) ∧
      ((clear st).store.length ≤ MAX_CACHE_SIZE ∧
        ((clear st).store.map Prod.fst).Nodup) ∧
      (MAX_CACHE_SIZE ≤ st.store.length →
        (set key v ttl now st).stats.evictions = st.stats.evictions + 100 ∧
          (evictOldest st).store.length + 100 = st.store.length ∧
          (∀ e ∈ (sortByCreatedAt st.store).take EVICT_BATCH,
            ∀ s ∈ (evictOldest st).store, e.2.createdAt ≤ s.2.createdAt) ∧
          (∀ kv ∈ st.store, (kv ∈ (evictOldest st).store ↔
            kv.1 ∉ ((sortByCreatedAt st.store).take EVICT_BATCH).map
              Prod.fst))) := by
  have hsortperm : (sortByCreatedAt st.store).Perm st.store :=
    sortByCreatedAt_perm st.store
  have hsortlen : (sortByCreatedAt st.store).length = st.store.length :=
    hsortperm.length_eq
  have hkeysperm :
      ((sortByCreatedAt st.store).map Prod.fst).Perm (st.store.map Prod.fst) :=
    hsortperm.map Prod.fst
  have hsortnd : ((sortByCreatedAt st.store).map Prod.fst).Nodup :=
    hkeysperm.nodup_iff.mpr hnd
  have hks_eq :
      ((sortByCreatedAt st.store).take EVICT_BATCH).map Prod.fst
        = ((sortByCreatedAt st.store).map Prod.fst).take EVICT_BATCH := by
    rw [List.map_take]
  have hksnd :
      (((sortByCreatedAt st.store).take EVICT_BATCH).map Prod.fst).Nodup := by
    rw [hks_eq]
    exact hsortnd.sublist (List.take_sublist _ _)
  have hksmem : ∀ k ∈ ((sortByCreatedAt st.store).take EVICT_BATCH).map
      Prod.fst, k ∈ st.store.map Prod.fst := by
    intro k hk
    rw [hks_eq] at hk
    exact hkeysperm.mem_iff.mp (List.take_subset _ _ hk)
  have hsurv_not_ks : ∀ s ∈ (evictOldest st).store,
      s.1 ∉ ((sortByCreatedAt st.store).take EVICT_BATCH).map Prod.fst := by
    intro s hs hks
    have hs' : s ∈ (evictLoop st
        (((sortByCreatedAt st.store).take EVICT_BATCH).map Prod.fst)).store :=
      hs
    exact not_mem_keys_evictLoop _ st hnd hks
      (List.mem_map_of_mem Prod.fst hs')
  have hev_sub : (evictOldest st).store.Sublist st.store :=
    evictLoop_store_sublist _ st
  have hev_nd : ((evictOldest st).store.map Prod.fst).Nodup :=
    hnd.sublist (hev_sub.map Prod.fst)
  refine ⟨?_, ?_, ?_, ?_, ?_, ?_⟩
  · -- `set` keeps the bound and unique keys
    rw [set_store_eq]
    by_cases hfull : MAX_CACHE_SIZE ≤ st.store.length
    · rw [if_pos hfull]
      have hlen := evictLoop_length
        (((sortByCreatedAt st.store).take EVICT_BATCH).map Prod.fst) st
        hksnd hnd hksmem
      have hkslen :
          (((sortByCreatedAt st.store).take EVICT_BATCH).map Prod.fst).length
            = EVICT_BATCH := by
        rw [List.length_map, List.length_take, hsortlen]
        have : EVICT_BATCH ≤ st.store.length := le_trans (by decide) hfull
        omega
      have hml := mapSet_length_le key ⟨v, now, now + ttl * 1000, ttl⟩
        (evictOldest st).store
      constructor
      · have : (evictOldest st).store.length + EVICT_BATCH
            = st.store.length := by
          rw [← hkslen]
          exact hlen
        have hb : EVICT_BATCH = 100 := rfl
        have hM : MAX_CACHE_SIZE = 1000 := rfl
        omega
      · exact mapSet_keys_nodup hev_nd
    · rw [if_neg hfull]
      have hml := mapSet_length_le key ⟨v, now, now + ttl * 1000, ttl⟩ st.store
      constructor
      · have hM : MAX_CACHE_SIZE = 1000 := rfl
        omega
      · exact mapSet_keys_nodup hnd
  · -- `get`
    rcases get_store_cases key now st with h | h <;> rw [h]
    · exact ⟨hinv, hnd⟩
    · exact ⟨le_trans ((mapDelete_sublist key st.store).length_le) hinv,
        mapDelete_keys_nodup hnd⟩
  · -- `has`
    rcases has_store_cases key now st with h | h <;> rw [h]
    · exact ⟨hinv, hnd⟩
    · exact ⟨le_trans ((mapDelete_sublist key st.store).length_le) hinv,
        mapDelete_keys_nodup hnd⟩
  · -- `del`
    exact ⟨le_trans ((mapDelete_sublist key st.store).length_le) hinv,
      mapDelete_keys_nodup hnd⟩
  · -- `clear`
    exact ⟨by simp [clear, MAX_CACHE_SIZE], by simp [clear]⟩
  · -- eviction specifics at capacity
    intro hfull
    have hkslen :
        (((sortByCreatedAt st.store).take EVICT_BATCH).map Prod.fst).length
          = EVICT_BATCH := by
      rw [List.length_map, List.length_take, hsortlen]
      have : EVICT_BATCH ≤ st.store.length := le_trans (by decide) hfull
      omega
    have hlen := evictLoop_length
      (((sortByCreatedAt st.store).take EVICT_BATCH).map Prod.fst) st
      hksnd hnd hksmem
    refine ⟨?_, ?_, ?_, ?_⟩
    · -- evictions counter increases by exactly 100
      have hstats : (set key v ttl now st).stats.evictions
          = (evictOldest st).stats.evictions := by
        rw [set_stats_evictions_eq, if_pos hfull]
      rw [hstats]
      unfold evictOldest
      rw [evictLoop_stats]
      rw [hkslen]
      rfl
    · -- exactly 100 entries leave the store
      have h100 :
          (((sortByCreatedAt st.store).take EVICT_BATCH).map Prod.fst).length
            = 100 := hkslen
      unfold evictOldest
      omega
    · -- the evicted block is oldest-by-creation
      intro e he s hs
      have hs_store : s ∈ st.store := hev_sub.subset hs
      have hs_sorted : s ∈ sortByCreatedAt st.store :=
        hsortperm.mem_iff.mpr hs_store
      have hs_not_take : s ∉ (sortByCreatedAt st.store).take EVICT_BATCH := by
        intro hcon
        exact hsurv_not_ks s hs (List.mem_map_of_mem Prod.fst hcon)
      have hs_drop : s ∈ (sortByCreatedAt st.store).drop EVICT_BATCH := by
        rw [← List.take_append_drop EVICT_BATCH (sortByCreatedAt st.store)]
          at hs_sorted
        rcases List.mem_append.mp hs_sorted with h | h
        · exact absurd h hs_not_take
        · exact h
      exact sorted_take_le_drop (sortByCreatedAt_sorted st.store)
        EVICT_BATCH he hs_drop
    · -- survivors are exactly the entries outside the sorted 100-prefix
      intro kv hkv
      constructor
      · intro hin
        exact hsurv_not_ks kv hin
      · intro hnotin
        exact mem_evictLoop_of_not_mem _ st hkv hnotin

/-- Witness for C1 at a small concrete state. -/
theorem cache_capacity_invariant_witness :
    (set "k" ⟨"d", none⟩ 5 0
        ⟨[("a", ⟨⟨"x", none⟩, 0, 5, 5⟩)], ⟨0, 0, 0, 0⟩⟩).store.length
      ≤ MAX_CACHE_SIZE :=
  (cache_capacity_invariant ⟨[("a", ⟨⟨"x", none⟩, 0, 5, 5⟩)], ⟨0, 0, 0, 0⟩⟩
    "k" ⟨"d", none⟩ 5 0 (by decide) (by decide)).1.1

end CacheService

end ScanRx
